import Mathlib

/-!
# Verification of the Idealista Portugal crawl/extraction pipeline

Shallow embedding of the repository's core (parser/transformer of
`__NEXT_DATA__` listing items, the amenity/kind/floor inference tables,
the `extractNextData` embedded-state extraction, and the per-location
crawl loop of `IdealistaScraper.scrapeLocation`), together with theorems
settling the specification's claims about it.

Conventions of the embedding:
* JavaScript `number` fields that are only copied or compared are
  modelled as `Int`; machine/IEEE representation plays no role in any
  claim settled here.
* JavaScript truthiness on the string/number options that the source
  tests with `||` / `&&` / `?:` is modelled explicitly (`none` and
  `some ""` / `some 0` are falsy).
* Clock reads (`Date.now()`, `new Date().toISOString()`) are passed in
  as an explicit capture instant `now : Nat` (milliseconds); the ISO
  rendering the source stores is injective in the instant, so the
  instant itself is stored.
* Fallible JavaScript (code inside `try`/`catch`) is modelled as
  `Option`-returning functions; a caught exception is `none`.
-/

namespace Idealista

/-! ## JavaScript string primitives used by the source -/

/-- Simple lowercasing of one character: ASCII `A`-`Z` and the Latin-1
uppercase letters (`À`..`Þ`, excluding `×`) map to their lowercase forms,
everything else is unchanged.  This agrees with JavaScript
`String.prototype.toLowerCase` on every character occurring in the
source's term tables and in the inputs considered here. -/
def lowerChar (c : Char) : Char :=
  if 'A' ≤ c ∧ c ≤ 'Z' then Char.ofNat (c.toNat + 32)
  else if 0xC0 ≤ c.toNat ∧ c.toNat ≤ 0xDE ∧ c.toNat ≠ 0xD7 then Char.ofNat (c.toNat + 32)
  else c

/-- JavaScript `s.toLowerCase()`. -/
def jsToLower (s : String) : String := String.mk (s.toList.map lowerChar)

/-- Whitespace as matched by the source's `/\s+/` and by `trim`. -/
def isWsChar (c : Char) : Bool :=
  c = ' ' || c = '\t' || c = '\n' || c = '\r' || c = '\x0c'

/-- JavaScript `s.trim()`. -/
def jsTrim (s : String) : String :=
  String.mk (((s.toList.dropWhile isWsChar).reverse.dropWhile isWsChar).reverse)

/-- Does the second list occur at the start of the first? -/
def startsList : List Char → List Char → Bool
  | [], _ => true
  | _ :: _, [] => false
  | a :: as, b :: bs => a = b && startsList as bs

/-- Does `pat` occur contiguously inside `hay`? -/
def containsList : List Char → List Char → Bool
  | [], pat => pat.isEmpty
  | h :: t, pat => startsList pat (h :: t) || containsList t pat

/-- JavaScript `s.includes(pat)`. -/
def strContains (s pat : String) : Bool := containsList s.toList pat.toList

/-- JavaScript `s.startsWith(pre)` (written list-wise so the kernel can
evaluate it). -/
def strStarts (s pre : String) : Bool := startsList pre.toList s.toList

/-- Collapse every run of whitespace into a single space
(the source's `text.replace(/\s+/g, ' ')`). -/
def collapseWs : List Char → List Char
  | [] => []
  | [c] => if isWsChar c then [' '] else [c]
  | a :: b :: t =>
    if isWsChar a then
      if isWsChar b then collapseWs (b :: t)
      else ' ' :: collapseWs (b :: t)
    else a :: collapseWs (b :: t)

/-- `cleanText` from `parser.ts`: falsy input (absent or empty) gives
`undefined`; otherwise whitespace runs collapse to one space and the
ends are trimmed. -/
def cleanText (t : Option String) : Option String :=
  match t with
  | none => none
  | some s => if s = "" then none else some (jsTrim (String.mk (collapseWs s.toList)))

/-- JavaScript `a || b` where `a : string | undefined` and the result is
coerced against a string default `b` (empty string is falsy). -/
def jsStrOr (a : Option String) (b : String) : String :=
  match a with
  | some s => if s = "" then b else s
  | none => b

/-- JavaScript `a || b` on two possibly-undefined strings. -/
def jsOptOr (a b : Option String) : Option String :=
  match a with
  | some s => if s = "" then b else some s
  | none => b

/-- JavaScript `a || b` on a possibly-undefined number with a number
default (`0` is falsy). -/
def jsNumOr (a : Option Int) (b : Int) : Int :=
  match a with
  | some x => if x = 0 then b else x
  | none => b

/-- JavaScript truthiness of a `string | undefined` value. -/
def jsTruthyS (o : Option String) : Bool :=
  match o with
  | some s => decide (s ≠ "")
  | none => false

/-- JavaScript truthiness of a `boolean | undefined` value. -/
def jsTruthyB (o : Option Bool) : Bool := o.getD false

/-- `[..].filter(Boolean)` over possibly-undefined strings. -/
def truthyParts (xs : List (Option String)) : List String :=
  xs.filterMap fun o =>
    match o with
    | some s => if s = "" then none else some s
    | none => none

/-! ## Data model (from `types.ts` / `parser.ts`)

`RawItem` embeds `IdealistaPropertyItem`: the loosely structured listing
payload of `__NEXT_DATA__`, every field optional.  Fields that
`parsePropertyItem` / `extractFeatures` never read are omitted. -/

/-- `detailedType` sub-object of `IdealistaPropertyItem`. -/
structure DetailedType where
  typology : Option String := none
  subTypology : Option String := none
  deriving DecidableEq, Repr

/-- `suggestedTexts` sub-object of `IdealistaPropertyItem`. -/
structure SuggestedTexts where
  subtitle : Option String := none
  title : Option String := none
  deriving DecidableEq, Repr

/-- One entry of `labels` on `IdealistaPropertyItem`. -/
structure LabelItem where
  type : Option String := none
  text : Option String := none
  deriving DecidableEq, Repr

/-- `priceInfo.price` sub-object of `IdealistaPropertyItem`. -/
structure PriceBox where
  amount : Option Int := none
  currencySuffix : Option String := none
  deriving DecidableEq, Repr

/-- `priceInfo` sub-object of `IdealistaPropertyItem`. -/
structure PriceInfo where
  price : Option PriceBox := none
  deriving DecidableEq, Repr

/-- `IdealistaPropertyItem` from `parser.ts` (the RawItem of the spec). -/
structure RawItem where
  propertyCode : Option String := none
  thumbnail : Option String := none
  externalReference : Option String := none
  floor : Option String := none
  price : Option Int := none
  propertyType : Option String := none
  operation : Option String := none
  size : Option Int := none
  exterior : Option Bool := none
  rooms : Option Int := none
  bathrooms : Option Int := none
  address : Option String := none
  province : Option String := none
  municipality : Option String := none
  district : Option String := none
  country : Option String := none
  neighborhood : Option String := none
  latitude : Option Int := none
  longitude : Option Int := none
  description : Option String := none
  detailedType : Option DetailedType := none
  newDevelopment : Option Bool := none
  hasVideo : Option Bool := none
  has3DTour : Option Bool := none
  hasPlan : Option Bool := none
  hasLift : Option Bool := none
  priceInfo : Option PriceInfo := none
  detailedType_typology : Option String := none
  suggestedTexts : Option SuggestedTexts := none
  hasParkingSpace : Option Bool := none
  url : Option String := none
  hasSwimmingPool : Option Bool := none
  hasTerrace : Option Bool := none
  hasGarden : Option Bool := none
  labels : Option (List LabelItem) := none
  deriving DecidableEq, Repr

/-- Coordinate pair (`{ lat, lon }` in `types.ts`). -/
structure Coords where
  lat : Int
  lon : Int
  deriving DecidableEq, Repr

/-- `Property.location` from `types.ts`. -/
structure PropLocation where
  address : Option String
  city : String
  region : Option String
  country : String
  coordinates : Option Coords
  deriving DecidableEq, Repr

/-- `Property.details` as populated by `parsePropertyItem`. -/
structure PropDetails where
  bedrooms : Option Int
  bathrooms : Option Int
  sqm : Option Int
  floor : Option Int
  rooms : Option Int
  deriving DecidableEq, Repr

/-- `Property` from `types.ts` (the CanonicalRecord of the spec), with the
fields `parsePropertyItem` populates.  `scrapedAt` holds the capture
instant in milliseconds; the source stores its ISO-8601 rendering, an
injective image of the instant. -/
structure Property where
  id : String
  source : String
  url : String
  title : String
  price : Int
  currency : String
  propertyType : String
  transactionType : String
  location : PropLocation
  details : PropDetails
  features : List String
  images : List String
  description : Option String
  scrapedAt : Nat
  deriving DecidableEq, Repr

/-- `https://www.idealista.pt` -/
def baseUrl : String := "https://www.idealista.pt"

/-! ## `parser.ts` helper functions -/

/-- Decimal value of a digit run. -/
def digitsVal (ds : List Char) : Nat :=
  ds.foldl (fun a c => a * 10 + (c.toNat - 48)) 0

/-- The first embedded run of decimal digits, parsed (the source's
`cleaned.match(/(\d+)/)` followed by `parseInt(..., 10)`). -/
def firstDigitRun : List Char → Option Nat
  | [] => none
  | c :: t =>
    if c.isDigit then some (digitsVal (c :: t.takeWhile Char.isDigit))
    else firstDigitRun t

/-- `parseFloor` from `parser.ts`: falsy input is absent; recognized
ground-floor terms give 0, basement terms give -1, attic terms give the
sentinel 99; otherwise the first embedded integer; otherwise absent. -/
def parseFloor (floor : Option String) : Option Int :=
  match floor with
  | none => none
  | some f =>
    if f = "" then none
    else
      let cleaned := jsTrim (jsToLower f)
      if strContains cleaned "r/c" || strContains cleaned "rés" || strContains cleaned "térr" then
        some 0
      else if strContains cleaned "cave" || strContains cleaned "subsolo" then
        some (-1)
      else if strContains cleaned "sótão" || strContains cleaned "ático" then
        some 99
      else
        match firstDigitRun cleaned.toList with
        | some n => some (Int.ofNat n)
        | none => none

/-- The body of `mapPropertyType` from `parser.ts`, acting on the
already-coalesced input string (`propertyType || typology || ''`):
lowercase, then an ordered chain of substring tests. -/
def mapPropertyTypeStr (s : String) : String :=
  let ty := jsToLower s
  if strContains ty "flat" || strContains ty "apartamento" || strContains ty "apartment" then
    "apartment"
  else if strContains ty "moradia" || strContains ty "villa" || strContains ty "chalet" then
    "villa"
  else if strContains ty "house" || strContains ty "casa" then "house"
  else if strContains ty "penthouse" || strContains ty "cobertura" then "penthouse"
  else if strContains ty "duplex" then "duplex"
  else if strContains ty "studio" || strContains ty "t0" then "studio"
  else if strContains ty "loft" then "loft"
  else if strContains ty "office" || strContains ty "escritório" then "office"
  else if strContains ty "premises" || strContains ty "loja" then "commercial"
  else if strContains ty "garage" || strContains ty "garagem" then "garage"
  else if strContains ty "parking" || strContains ty "estacionamento" then "parking"
  else if strContains ty "building" || strContains ty "prédio" then "building"
  else if strContains ty "land" || strContains ty "terreno" then "land"
  else "other"

/-- `mapPropertyType(propertyType?, typology?)` from `parser.ts`. -/
def mapPropertyType (propertyType typology : Option String) : String :=
  mapPropertyTypeStr (jsStrOr propertyType (jsStrOr typology ""))

/-- `mapTransactionType` from `parser.ts`. -/
def mapTransactionType (operation : Option String) : String :=
  let op := jsToLower (jsStrOr operation "")
  if strContains op "sale" || strContains op "comprar" || strContains op "venda" then "sale"
  else if strContains op "rent" || strContains op "arrendar" || strContains op "alugar" then "rent"
  else "sale"

/-- `extractFeatures` from `parser.ts`: one feature label per truthy
boolean flag, in source order, then the lowercased texts of `labels`. -/
def extractFeatures (item : RawItem) : List String :=
  (if jsTruthyB item.exterior then ["exterior"] else []) ++
  (if jsTruthyB item.hasLift then ["elevator"] else []) ++
  (if jsTruthyB item.hasParkingSpace then ["parking"] else []) ++
  (if jsTruthyB item.hasSwimmingPool then ["swimming pool"] else []) ++
  (if jsTruthyB item.hasTerrace then ["terrace"] else []) ++
  (if jsTruthyB item.hasGarden then ["garden"] else []) ++
  (if jsTruthyB item.hasVideo then ["video available"] else []) ++
  (if jsTruthyB item.has3DTour then ["3D tour"] else []) ++
  (if jsTruthyB item.hasPlan then ["floor plan"] else []) ++
  (if jsTruthyB item.newDevelopment then ["new development"] else []) ++
  ((item.labels.getD []).filterMap fun lb =>
    match lb.text with
    | some t => if t = "" then none else some (jsToLower t)
    | none => none)

/-- `buildPropertyUrl` from `parser.ts`. -/
def buildPropertyUrl (propertyCode url : Option String) : String :=
  let fromCode : String :=
    match propertyCode with
    | some c => if c = "" then baseUrl else baseUrl ++ "/imovel/" ++ c ++ "/"
    | none => baseUrl
  match url with
  | some u =>
    if u = "" then fromCode
    else if strStarts u "/" then baseUrl ++ u
    else if strStarts u "http" then u
    else fromCode
  | none => fromCode

/-- The nested upstream price `item.priceInfo?.price?.amount`. -/
def priceAmountOf (item : RawItem) : Option Int :=
  (item.priceInfo.bind PriceInfo.price).bind PriceBox.amount

/-- `parsePropertyItem` from `parser.ts` — the Normalizer.  `now` is the
capture instant in milliseconds (`Date.now()`). -/
def parsePropertyItem (item : RawItem) (location : String) (now : Nat) : Property :=
  let price := jsNumOr item.price (jsNumOr (priceAmountOf item) 0)
  let propertyType :=
    mapPropertyType item.propertyType
      (jsOptOr (item.detailedType.bind DetailedType.typology) item.detailedType_typology)
  let transactionType := mapTransactionType item.operation
  let addressParts :=
    truthyParts [item.address, item.neighborhood, item.district, item.municipality]
  { id := jsStrOr item.propertyCode
      (jsStrOr item.externalReference ("idealista-" ++ toString now)),
    source := "idealista_portugal",
    url := buildPropertyUrl item.propertyCode item.url,
    title := jsStrOr (cleanText (jsOptOr (item.suggestedTexts.bind SuggestedTexts.title)
      item.address)) "Property in Portugal",
    price := price,
    currency := "EUR",
    propertyType := propertyType,
    transactionType := transactionType,
    location :=
      { address := if addressParts.length > 0
          then some (String.intercalate ", " addressParts) else none,
        city := jsStrOr item.municipality location,
        region := item.province,
        country := "Portugal",
        coordinates :=
          match item.latitude, item.longitude with
          | some la, some lo => if la ≠ 0 ∧ lo ≠ 0 then some ⟨la, lo⟩ else none
          | _, _ => none },
    details :=
      { bedrooms := item.rooms,
        bathrooms := item.bathrooms,
        sqm := item.size,
        floor := parseFloor item.floor,
        rooms := item.rooms },
    features := extractFeatures item,
    images :=
      match item.thumbnail with
      | some t => if t = "" then [] else [t]
      | none => [],
    description := cleanText (jsOptOr item.description
      (item.suggestedTexts.bind SuggestedTexts.subtitle)),
    scrapedAt := now }

/-! ## Amenity inference (`extractAmenities` from `transformer.ts`) -/

/-- `PropertyAmenities` from `transformer.ts`; `extractAmenities` always
assigns all twelve flags, so they are plain booleans here. -/
structure PropertyAmenities where
  has_parking : Bool
  has_garden : Bool
  has_balcony : Bool
  has_terrace : Bool
  has_pool : Bool
  has_elevator : Bool
  has_garage : Bool
  has_basement : Bool
  has_fireplace : Bool
  is_furnished : Bool
  is_new_construction : Bool
  is_luxury : Bool
  deriving DecidableEq, Repr

/-- Synonym list for `has_parking` in `extractAmenities`. -/
def parkingTerms : List String := ["parking", "garagem", "estacionamento", "garage"]

/-- Synonym list for `has_garden`. -/
def gardenTerms : List String := ["garden", "jardim"]

/-- Synonym list for `has_balcony`. -/
def balconyTerms : List String := ["balcony", "balcão", "varanda"]

/-- Synonym list for `has_terrace` (the source repeats "terrace"). -/
def terraceTerms : List String := ["terrace", "terraço", "terrace"]

/-- Synonym list for `has_pool`. -/
def poolTerms : List String := ["pool", "piscina", "swimming"]

/-- Synonym list for `has_elevator`. -/
def elevatorTerms : List String := ["elevator", "elevador", "lift", "ascensor"]

/-- Synonym list for `has_garage`. -/
def garageTerms : List String := ["garage", "garagem"]

/-- Synonym list for `has_basement`. -/
def basementTerms : List String := ["basement", "cave", "subsolo"]

/-- Synonym list for `has_fireplace`. -/
def fireplaceTerms : List String := ["fireplace", "lareira", "chimenea"]

/-- Synonym list for `is_furnished`. -/
def furnishedTerms : List String := ["furnished", "mobilado", "amueblado"]

/-- Synonym list for `is_new_construction`. -/
def newConstructionTerms : List String := ["new development", "nova construção", "obra nova"]

/-- Synonym list for `is_luxury`. -/
def luxuryTerms : List String := ["luxury", "luxo", "premium"]

/-- `featuresLower.some(f => terms.some(term => f.includes(term)))`:
is some synonym contained in some lowercased feature label? -/
def anyFeatureHas (features terms : List String) : Bool :=
  (features.map jsToLower).any fun f => terms.any fun t => strContains f t

/-- `extractAmenities` from `transformer.ts`. -/
def extractAmenities (features : List String) : PropertyAmenities :=
  { has_parking := anyFeatureHas features parkingTerms,
    has_garden := anyFeatureHas features gardenTerms,
    has_balcony := anyFeatureHas features balconyTerms,
    has_terrace := anyFeatureHas features terraceTerms,
    has_pool := anyFeatureHas features poolTerms,
    has_elevator := anyFeatureHas features elevatorTerms,
    has_garage := anyFeatureHas features garageTerms,
    has_basement := anyFeatureHas features basementTerms,
    has_fireplace := anyFeatureHas features fireplaceTerms,
    is_furnished := anyFeatureHas features furnishedTerms,
    is_new_construction := anyFeatureHas features newConstructionTerms,
    is_luxury := anyFeatureHas features luxuryTerms }

/-! ## `parseNextData` (`parser.ts`) -/

/-- `IdealistaSearchData`. -/
structure SearchData where
  elementList : Option (List RawItem) := none
  total : Option Int := none
  totalPages : Option Int := none
  currentPage : Option Int := none
  actualPage : Option Int := none
  deriving DecidableEq, Repr

/-- `props.pageProps` of `IdealistaNextData`. -/
structure PageProps where
  searchData : Option SearchData := none
  deriving DecidableEq, Repr

/-- `props` of `IdealistaNextData`. -/
structure NextProps where
  pageProps : Option PageProps := none
  deriving DecidableEq, Repr

/-- `IdealistaNextData` (the typed shape of the embedded state). -/
structure NextData where
  props : Option NextProps := none
  deriving DecidableEq, Repr

/-- The optional chain `nextData?.props?.pageProps?.searchData?.elementList`. -/
def elementListOf (nd : NextData) : Option (List RawItem) :=
  ((nd.props.bind NextProps.pageProps).bind PageProps.searchData).bind SearchData.elementList

/-- The per-item stage of `parseNextData`:
`elementList.map(item => try parse catch null).filter(p => p !== null)`.
The argument `f` embeds the guarded item parser — `none` stands for a
caught per-item exception. -/
def parseItems {α : Type} (f : RawItem → Option α) (items : List RawItem) : List α :=
  (items.map f).filterMap id

/-- `parseNextData` from `parser.ts`.  The surrounding `try`/`catch`
returns `[]` on any failure; in the typed embedding the optional-chain
fallback `|| []` and the explicit empty check are the reachable paths. -/
def parseNextData (nd : NextData) (location : String) (now : Nat) : List Property :=
  let elementList := (elementListOf nd).getD []
  if elementList.length = 0 then []
  else parseItems (fun item => some (parsePropertyItem item location now)) elementList

/-! ## The crawl loop (`IdealistaScraper.scrapeLocation`)

`scrapePage` performs browser I/O; the loop sees it as a map from page
number to either a `ScrapeResult` (its `properties` and `hasNextPage`
are what the loop reads) or a thrown error, classified by whether its
message contains `'blocked'` — exactly the distinction made by the
`catch` in `scrapeLocation`.  The loop is instrumented with the visited
page list and a stop reason labelling which of the loop's distinct exit
paths fired (each corresponds to one log line in the source):
`limitReached` = "Reached limit", `noMorePages` = "No more pages
available", `blocked` = "Blocked by anti-bot, stopping scrape",
`completed` = the `for` loop ran past `maxPages`. -/

/-- What the loop reads from one `ScrapeResult`. -/
structure PageResult (α : Type) where
  properties : List α
  hasNextPage : Bool
  deriving DecidableEq, Repr

/-- One `scrapePage` call: a result, or a thrown error with its
`'blocked'` classification. -/
inductive FetchOutcome (α : Type) where
  | ok (r : PageResult α)
  | err (blocked : Bool)
  deriving DecidableEq, Repr

/-- Which exit path of `scrapeLocation`'s loop fired. -/
inductive StopReason where
  | completed
  | limitReached
  | noMorePages
  | blocked
  deriving DecidableEq, Repr

/-- The observable outcome of one location crawl. -/
structure LocationOutcome (α : Type) where
  records : List α
  fetchedPages : List Nat
  reason : StopReason
  deriving DecidableEq, Repr

/-- The check `if (limit && allProperties.length >= limit)`; a limit of
`0` is falsy in JavaScript. -/
def limitHit (limit : Option Nat) (len : Nat) : Bool :=
  match limit with
  | some l => decide (0 < l) && decide (l ≤ len)
  | none => false

/-- The final `limit ? allProperties.slice(0, limit) : allProperties`. -/
def jsTruncate {α : Type} (limit : Option Nat) (xs : List α) : List α :=
  match limit with
  | some l => if 0 < l then xs.take l else xs
  | none => xs

/-- The body of `scrapeLocation`'s `for` loop, as a recursion on the
number of remaining loop iterations (`remaining = maxPages - page + 1`
at entry).  Per iteration: fetch the page; a blocked error breaks, a
non-blocked error falls through to the next page; otherwise append the
page's properties, break if the record limit is reached, break if
`hasNextPage` is false, else advance to the next page. -/
def scrapeGo {α : Type} (fetch : Nat → FetchOutcome α) (limit : Option Nat) :
    Nat → Nat → List α → List Nat → LocationOutcome α
  | 0, _, acc, visited => ⟨acc, visited, StopReason.completed⟩
  | remaining + 1, page, acc, visited =>
    match fetch page with
    | FetchOutcome.err true => ⟨acc, visited ++ [page], StopReason.blocked⟩
    | FetchOutcome.err false =>
      scrapeGo fetch limit remaining (page + 1) acc (visited ++ [page])
    | FetchOutcome.ok r =>
      if limitHit limit (acc ++ r.properties).length then
        ⟨acc ++ r.properties, visited ++ [page], StopReason.limitReached⟩
      else if r.hasNextPage then
        scrapeGo fetch limit remaining (page + 1) (acc ++ r.properties) (visited ++ [page])
      else
        ⟨acc ++ r.properties, visited ++ [page], StopReason.noMorePages⟩

/-- `scrapeLocation(location, transactionType, { maxPages, limit })`:
run the loop from page 1 and slice the accumulator to the limit. -/
def scrapeLocation {α : Type} (fetch : Nat → FetchOutcome α) (maxPages : Nat)
    (limit : Option Nat) : LocationOutcome α :=
  let out := scrapeGo fetch limit maxPages 1 [] []
  ⟨jsTruncate limit out.records, out.fetchedPages, out.reason⟩

/-! ## Embedded-state extraction (`IdealistaScraper.extractNextData`)

The source loads the HTML with cheerio, selects the script tag with id
`__NEXT_DATA__`, and runs `JSON.parse` on its text, all inside a
`try`/`catch` that returns `null`.  The document is modelled after
cheerio's view of it — the list of its script tags — and `JSON.parse`'s
accept/reject behaviour is modelled by a standard-JSON recursive-descent
parser (`jsonParse`).  The `as IdealistaNextData` cast in the source
performs no validation, so a successfully parsed value is returned
as-is. -/

/-- A parsed JSON value.  Number values keep their source lexeme: no
claim here depends on numeric value semantics, only on `JSON.parse`'s
accept/reject behaviour. -/
inductive Json where
  | null
  | bool (b : Bool)
  | num (lexeme : String)
  | str (s : String)
  | arr (elems : List Json)
  | obj (fields : List (String × Json))

/-- JSON insignificant whitespace. -/
def jsonWs (c : Char) : Bool := c = ' ' || c = '\t' || c = '\n' || c = '\r'

/-- Drop leading JSON whitespace. -/
def skipWs (cs : List Char) : List Char := cs.dropWhile jsonWs

/-- Hexadecimal digit test for `\u` escapes. -/
def isHex (c : Char) : Bool :=
  c.isDigit || ('a' ≤ c && c ≤ 'f') || ('A' ≤ c && c ≤ 'F')

/-- Value of a hexadecimal digit. -/
def hexVal (c : Char) : Nat :=
  if c.isDigit then c.toNat - 48
  else if 'a' ≤ c && c ≤ 'f' then c.toNat - 87
  else c.toNat - 55

/-- Parse the body of a JSON string after the opening quote; `acc` is the
reversed content so far.  Raw control characters are rejected, escapes
follow the JSON grammar. -/
def parseStringBody : List Char → List Char → Option (String × List Char)
  | [], _ => none
  | c :: r, acc =>
    if c = '"' then some (String.mk acc.reverse, r)
    else if c = '\\' then
      match r with
      | [] => none
      | e :: r2 =>
        if e = '"' || e = '\\' || e = '/' then parseStringBody r2 (e :: acc)
        else if e = 'b' then parseStringBody r2 ('\x08' :: acc)
        else if e = 'f' then parseStringBody r2 ('\x0c' :: acc)
        else if e = 'n' then parseStringBody r2 ('\n' :: acc)
        else if e = 'r' then parseStringBody r2 ('\x0d' :: acc)
        else if e = 't' then parseStringBody r2 ('\t' :: acc)
        else if e = 'u' then
          match r2 with
          | a :: b :: c2 :: d :: r3 =>
            if isHex a && isHex b && isHex c2 && isHex d then
              parseStringBody r3
                (Char.ofNat (((hexVal a * 16 + hexVal b) * 16 + hexVal c2) * 16 + hexVal d) :: acc)
            else none
          | _ => none
        else none
    else if c.toNat < 32 then none
    else parseStringBody r (c :: acc)
termination_by cs _ => cs.length
decreasing_by all_goals simp_arith [List.length]

/-- Split off a leading run of decimal digits. -/
def digitsSplit (cs : List Char) : List Char × List Char :=
  (cs.takeWhile Char.isDigit, cs.dropWhile Char.isDigit)

/-- JSON integer part: `0`, or a nonzero digit followed by digits. -/
def parseIntPart : List Char → Option (List Char × List Char)
  | [] => none
  | c :: t =>
    if c = '0' then some ([c], t)
    else if c.isDigit then
      let (ds, r) := digitsSplit t
      some (c :: ds, r)
    else none

/-- JSON optional fraction part: `.` must be followed by digits. -/
def parseFracPart (cs : List Char) : Option (List Char × List Char) :=
  match cs with
  | '.' :: t =>
    let (ds, r) := digitsSplit t
    if ds.isEmpty then none else some ('.' :: ds, r)
  | _ => some ([], cs)

/-- JSON optional exponent part. -/
def parseExpPart (cs : List Char) : Option (List Char × List Char) :=
  match cs with
  | c :: t =>
    if c = 'e' || c = 'E' then
      let (sgn, t2) : List Char × List Char :=
        match t with
        | s :: r => if s = '+' || s = '-' then ([s], r) else ([], t)
        | [] => ([], t)
      let (ds, r) := digitsSplit t2
      if ds.isEmpty then none else some (c :: (sgn ++ ds), r)
    else some ([], cs)
  | [] => some ([], [])

/-- A full JSON number token, returned as its lexeme. -/
def parseNumber (cs : List Char) : Option (String × List Char) :=
  let (neg, cs1) : List Char × List Char :=
    match cs with
    | '-' :: t => (['-'], t)
    | _ => ([], cs)
  match parseIntPart cs1 with
  | none => none
  | some (ip, r1) =>
    match parseFracPart r1 with
    | none => none
    | some (fp, r2) =>
      match parseExpPart r2 with
      | none => none
      | some (ep, r3) => some (String.mk (neg ++ ip ++ fp ++ ep), r3)

mutual

/-- Parse one JSON value.  The fuel argument bounds recursion depth; the
top-level entry point supplies more fuel than any input can consume. -/
def parseVal : Nat → List Char → Option (Json × List Char)
  | 0, _ => none
  | fuel + 1, cs =>
    match skipWs cs with
    | [] => none
    | c :: rest =>
      if c = 'n' then
        match rest with
        | 'u' :: 'l' :: 'l' :: r => some (Json.null, r)
        | _ => none
      else if c = 't' then
        match rest with
        | 'r' :: 'u' :: 'e' :: r => some (Json.bool true, r)
        | _ => none
      else if c = 'f' then
        match rest with
        | 'a' :: 'l' :: 's' :: 'e' :: r => some (Json.bool false, r)
        | _ => none
      else if c = '"' then
        match parseStringBody rest [] with
        | some (s, r) => some (Json.str s, r)
        | none => none
      else if c = '[' then
        match skipWs rest with
        | ']' :: r => some (Json.arr [], r)
        | _ => parseArrElems fuel rest []
      else if c = Char.ofNat 123 then
        match skipWs rest with
        | d :: r => if d = Char.ofNat 125 then some (Json.obj [], r) else parseObjFields fuel rest []
        | [] => none
      else if c = '-' || c.isDigit then
        match parseNumber (c :: rest) with
        | some (lex, r) => some (Json.num lex, r)
        | none => none
      else none

/-- Parse the comma-separated elements of a non-empty JSON array. -/
def parseArrElems : Nat → List Char → List Json → Option (Json × List Char)
  | 0, _, _ => none
  | fuel + 1, cs, acc =>
    match parseVal fuel cs with
    | none => none
    | some (v, rest) =>
      match skipWs rest with
      | ',' :: r => parseArrElems fuel r (acc ++ [v])
      | ']' :: r => some (Json.arr (acc ++ [v]), r)
      | _ => none

/-- Parse the members of a non-empty JSON object. -/
def parseObjFields : Nat → List Char → List (String × Json) → Option (Json × List Char)
  | 0, _, _ => none
  | fuel + 1, cs, acc =>
    match skipWs cs with
    | '"' :: r =>
      match parseStringBody r [] with
      | none => none
      | some (k, r2) =>
        match skipWs r2 with
        | ':' :: r3 =>
          match parseVal fuel r3 with
          | none => none
          | some (v, r4) =>
            match skipWs r4 with
            | ',' :: r5 => parseObjFields fuel r5 (acc ++ [(k, v)])
            | d :: r5 =>
              if d = Char.ofNat 125 then some (Json.obj (acc ++ [(k, v)]), r5) else none
            | [] => none
        | _ => none
    | _ => none

end

/-- `JSON.parse` as a value: `some` on a complete well-formed JSON text,
`none` where `JSON.parse` throws. -/
def jsonParse (s : String) : Option Json :=
  match parseVal (2 * s.length + 4) s.toList with
  | some (v, rest) => if (skipWs rest).isEmpty then some v else none
  | none => none

/-- A script tag of the rendered document, as cheerio exposes it to
`extractNextData`: its id and its text content (`scriptTag.html()`,
which may be null). -/
structure ScriptTag where
  id : String
  content : Option String
  deriving DecidableEq, Repr

/-- `IdealistaScraper.extractNextData`: select the `#__NEXT_DATA__`
script tag (`none` when the selection is empty), require non-empty
text, `JSON.parse` it; every failure — including a caught parse
exception — returns `none` (the source's `null`). -/
def extractNextData (doc : List ScriptTag) : Option Json :=
  match doc.find? (fun t => t.id == "__NEXT_DATA__") with
  | none => none
  | some tag =>
    match tag.content with
    | none => none
    | some txt => if txt = "" then none else jsonParse txt

/-! ## Helper lemmas -/

/-- `a || b` on strings is non-empty when the fallback is non-empty. -/
lemma jsStrOr_ne_empty (a : Option String) (b : String) (hb : b ≠ "") : jsStrOr a b ≠ "" := by
  cases a with
  | none => simpa [jsStrOr]
  | some s =>
    simp only [jsStrOr]
    split_ifs with h
    · exact hb
    · exact h

/-- The synthesized identifier `idealista-<now>` is never empty. -/
lemma idTag_ne_empty (now : Nat) : ("idealista-" ++ toString now) ≠ "" := by
  intro h
  have h2 := congrArg String.length h
  rw [String.length_append] at h2
  simp at h2
  exact absurd h2.1 (by decide)

/-- `jsNumOr` is non-negative when its fallback is and any present
upstream value is. -/
lemma jsNumOr_nonneg (a : Option Int) (b : Int) (hb : 0 ≤ b)
    (ha : ∀ x, a = some x → 0 ≤ x) : 0 ≤ jsNumOr a b := by
  cases a with
  | none => simpa [jsNumOr]
  | some x =>
    simp only [jsNumOr]
    split_ifs with h
    · exact hb
    · exact ha x rfl

/-- An amenity flag is set exactly when some lowercased feature label
contains some synonym of the amenity's term list. -/
lemma anyFeatureHas_iff (fs terms : List String) :
    anyFeatureHas fs terms = true ↔
      ∃ f ∈ fs, ∃ t ∈ terms, strContains (jsToLower f) t = true := by
  simp [anyFeatureHas, List.any_eq_true, List.mem_map]

/-! ## Claims -/

/-- C1 (amended).  For every `RawItem` — however incomplete — the
canonical record's identifier is non-empty; the price defaults to `0`
when both upstream price fields are absent, and it is non-negative
whenever every present upstream price field is non-negative.  (The
original claim's unconditional `price ≥ 0` fails: a negative upstream
price is copied through unchanged, see the counterexample.) -/
theorem parsePropertyItem_id_nonempty_price_default
    (item : RawItem) (location : String) (now : Nat) :
    (parsePropertyItem item location now).id ≠ "" ∧
    (item.price = none → priceAmountOf item = none →
      (parsePropertyItem item location now).price = 0) ∧
    ((∀ x, item.price = some x → 0 ≤ x) → (∀ x, priceAmountOf item = some x → 0 ≤ x) →
      0 ≤ (parsePropertyItem item location now).price) := by
  refine ⟨?_, ?_, ?_⟩
  · simp only [parsePropertyItem]
    exact jsStrOr_ne_empty _ _ (jsStrOr_ne_empty _ _ (idTag_ne_empty now))
  · intro h1 h2
    simp [parsePropertyItem, jsNumOr, h1, h2]
  · intro h1 h2
    simp only [parsePropertyItem]
    exact jsNumOr_nonneg _ _ (jsNumOr_nonneg _ _ le_rfl h2) h1

/-- Witness for C1 at the fully absent item. -/
theorem parsePropertyItem_id_nonempty_price_default_witness :
    (parsePropertyItem {} "lisboa" 0).id ≠ "" ∧ (parsePropertyItem {} "lisboa" 0).price = 0 ∧
      0 ≤ (parsePropertyItem {} "lisboa" 0).price := by
  obtain ⟨h1, h2, h3⟩ := parsePropertyItem_id_nonempty_price_default {} "lisboa" 0
  exact ⟨h1, h2 rfl rfl, h3 (fun x h => nomatch h) (fun x h => nomatch h)⟩

/-- C1 counterexample: an upstream price of `-1` is passed through, so
the produced record's price is negative. -/
theorem parsePropertyItem_negative_price_counterexample :
    (parsePropertyItem { price := some (-1) } "lisboa" 0).price < 0 := by decide

/-- C2 (amended).  The normalizer is a total function, and with the
capture instant fixed it is deterministic; two applications to the same
input at different instants agree on every field except the capture
timestamp — and also on the identifier, provided at least one upstream
identifier field (`propertyCode`, `externalReference`) is truthy.  (The
original claim's byte-for-byte equality across applications fails: the
capture timestamp is the clock reading, see the counterexample.) -/
theorem parsePropertyItem_time_invariant (item : RawItem) (location : String) (t1 t2 : Nat)
    (h : jsTruthyS item.propertyCode = true ∨ jsTruthyS item.externalReference = true) :
    { parsePropertyItem item location t1 with scrapedAt := 0 } =
      { parsePropertyItem item location t2 with scrapedAt := 0 } := by
  have hid : jsStrOr item.propertyCode
        (jsStrOr item.externalReference ("idealista-" ++ toString t1))
      = jsStrOr item.propertyCode
        (jsStrOr item.externalReference ("idealista-" ++ toString t2)) := by
    rcases h with h | h
    · rcases hpc : item.propertyCode with _ | s
      · rw [hpc] at h; simp [jsTruthyS] at h
      · rw [hpc] at h
        simp only [jsTruthyS, decide_eq_true_eq] at h
        simp [jsStrOr, h]
    · rcases her : item.externalReference with _ | s
      · rw [her] at h; simp [jsTruthyS] at h
      · rw [her] at h
        simp only [jsTruthyS, decide_eq_true_eq] at h
        rcases item.propertyCode with _ | s2
        · simp [jsStrOr, h]
        · by_cases h2 : s2 = "" <;> simp [jsStrOr, h, h2]
  simp [parsePropertyItem, hid]

/-- Witness for C2 at an item with a truthy `propertyCode`. -/
theorem parsePropertyItem_time_invariant_witness :
    { parsePropertyItem { propertyCode := some "123" } "lisboa" 0 with scrapedAt := 0 } =
      { parsePropertyItem { propertyCode := some "123" } "lisboa" 5 with scrapedAt := 0 } :=
  parsePropertyItem_time_invariant { propertyCode := some "123" } "lisboa" 0 5
    (Or.inl (by decide))

/-- C2 counterexample: two applications to the same input at different
clock instants produce different records (the capture timestamp — and
here also the synthesized identifier — differ). -/
theorem parsePropertyItem_nondeterministic_counterexample :
    parsePropertyItem {} "lisboa" 0 ≠ parsePropertyItem {} "lisboa" 1 := by decide

/-- C3 (amended).  For the feature list `["Piscina privada", "Garagem"]`
amenity inference yields `has_pool`, `has_garage` **and** `has_parking`
true ("garagem" is also a parking synonym) and every remaining flag
false; in general each amenity flag is true exactly when some
lower-cased feature label contains some synonym from that amenity's
term list, independently per amenity.  (The original claim's "every
other amenity flag false" fails on `has_parking`, see the
counterexample.) -/
theorem extractAmenities_example_and_rule :
    extractAmenities ["Piscina privada", "Garagem"] =
      { has_parking := true, has_garden := false, has_balcony := false, has_terrace := false,
        has_pool := true, has_elevator := false, has_garage := true, has_basement := false,
        has_fireplace := false, is_furnished := false, is_new_construction := false,
        is_luxury := false } ∧
    ∀ fs : List String,
      ((extractAmenities fs).has_parking = true ↔
        ∃ f ∈ fs, ∃ t ∈ parkingTerms, strContains (jsToLower f) t = true) ∧
      ((extractAmenities fs).has_garden = true ↔
        ∃ f ∈ fs, ∃ t ∈ gardenTerms, strContains (jsToLower f) t = true) ∧
      ((extractAmenities fs).has_balcony = true ↔
        ∃ f ∈ fs, ∃ t ∈ balconyTerms, strContains (jsToLower f) t = true) ∧
      ((extractAmenities fs).has_terrace = true ↔
        ∃ f ∈ fs, ∃ t ∈ terraceTerms, strContains (jsToLower f) t = true) ∧
      ((extractAmenities fs).has_pool = true ↔
        ∃ f ∈ fs, ∃ t ∈ poolTerms, strContains (jsToLower f) t = true) ∧
      ((extractAmenities fs).has_elevator = true ↔
        ∃ f ∈ fs, ∃ t ∈ elevatorTerms, strContains (jsToLower f) t = true) ∧
      ((extractAmenities fs).has_garage = true ↔
        ∃ f ∈ fs, ∃ t ∈ garageTerms, strContains (jsToLower f) t = true) ∧
      ((extractAmenities fs).has_basement = true ↔
        ∃ f ∈ fs, ∃ t ∈ basementTerms, strContains (jsToLower f) t = true) ∧
      ((extractAmenities fs).has_fireplace = true ↔
        ∃ f ∈ fs, ∃ t ∈ fireplaceTerms, strContains (jsToLower f) t = true) ∧
      ((extractAmenities fs).is_furnished = true ↔
        ∃ f ∈ fs, ∃ t ∈ furnishedTerms, strContains (jsToLower f) t = true) ∧
      ((extractAmenities fs).is_new_construction = true ↔
        ∃ f ∈ fs, ∃ t ∈ newConstructionTerms, strContains (jsToLower f) t = true) ∧
      ((extractAmenities fs).is_luxury = true ↔
        ∃ f ∈ fs, ∃ t ∈ luxuryTerms, strContains (jsToLower f) t = true) := by
  refine ⟨by decide, fun fs => ?_⟩
  refine ⟨?_, ?_, ?_, ?_, ?_, ?_, ?_, ?_, ?_, ?_, ?_, ?_⟩ <;>
    first
    | simpa [extractAmenities] using anyFeatureHas_iff fs parkingTerms
    | simpa [extractAmenities] using anyFeatureHas_iff fs gardenTerms
    | simpa [extractAmenities] using anyFeatureHas_iff fs balconyTerms
    | simpa [extractAmenities] using anyFeatureHas_iff fs terraceTerms
    | simpa [extractAmenities] using anyFeatureHas_iff fs poolTerms
    | simpa [extractAmenities] using anyFeatureHas_iff fs elevatorTerms
    | simpa [extractAmenities] using anyFeatureHas_iff fs garageTerms
    | simpa [extractAmenities] using anyFeatureHas_iff fs basementTerms
    | simpa [extractAmenities] using anyFeatureHas_iff fs fireplaceTerms
    | simpa [extractAmenities] using anyFeatureHas_iff fs furnishedTerms
    | simpa [extractAmenities] using anyFeatureHas_iff fs newConstructionTerms
    | simpa [extractAmenities] using anyFeatureHas_iff fs luxuryTerms

/-- C3 counterexample: on `["Piscina privada", "Garagem"]` the flag
`has_parking` is also true, contradicting "every other amenity flag
false". -/
theorem extractAmenities_parking_counterexample :
    (extractAmenities ["Piscina privada", "Garagem"]).has_parking = true := by decide

/-- The ordered kind table of `mapPropertyType`, as data: the claim's
kinds in source order, each with the synonym set the source tests. -/
def kindTable : List (String × List String) :=
  [("apartment", ["flat", "apartamento", "apartment"]),
   ("villa", ["moradia", "villa", "chalet"]),
   ("house", ["house", "casa"]),
   ("penthouse", ["penthouse", "cobertura"]),
   ("duplex", ["duplex"]),
   ("studio", ["studio", "t0"]),
   ("loft", ["loft"]),
   ("office", ["office", "escritório"]),
   ("commercial", ["premises", "loja"]),
   ("garage", ["garage", "garagem"]),
   ("parking", ["parking", "estacionamento"]),
   ("building", ["building", "prédio"]),
   ("land", ["land", "terreno"])]

/-- First kind of the table with a synonym contained in the input;
`other` when none matches (the spec's ordered-table reading). -/
def firstKindMatch : List (String × List String) → String → String
  | [], _ => "other"
  | (kind, terms) :: rest, ty =>
    if terms.any (fun t => strContains ty t) then kind else firstKindMatch rest ty

/-- The ordered-table lookup yields `other` exactly when no entry
matches, provided no kind in the table is itself named `other`. -/
lemma firstKindMatch_eq_other (table : List (String × List String)) (ty : String)
    (h : ∀ p ∈ table, p.1 ≠ "other") :
    firstKindMatch table ty = "other" ↔
      ∀ p ∈ table, p.2.any (fun t => strContains ty t) = false := by
  induction table with
  | nil => simp [firstKindMatch]
  | cons hd rest ih =>
    obtain ⟨kind, terms⟩ := hd
    simp only [firstKindMatch]
    by_cases hc : terms.any (fun t => strContains ty t) = true
    · rw [if_pos hc]
      constructor
      · intro hk
        exact absurd hk (h (kind, terms) (by simp))
      · intro hall
        exact absurd (hall (kind, terms) (by simp)) (by simp [hc])
    · rw [if_neg hc, ih (fun p hp => h p (List.mem_cons_of_mem _ hp))]
      constructor
      · intro hall p hp
        rcases List.mem_cons.mp hp with rfl | hp2
        · exact Bool.eq_false_iff.mpr hc
        · exact hall p hp2
      · intro hall p hp
        exact hall p (List.mem_cons_of_mem _ hp)

/-- C4.  Property-kind inference is a case-insensitive substring match
against the ordered table apartment, villa, house, penthouse, duplex,
studio, loft, office, commercial, garage, parking, building, land: for
every input string the source's branch chain returns the first matching
kind in table order, and `other` exactly when no kind's synonym
matches. -/
theorem mapPropertyType_table (s : String) :
    mapPropertyTypeStr s = firstKindMatch kindTable (jsToLower s) ∧
    (mapPropertyTypeStr s = "other" ↔
      ∀ p ∈ kindTable, p.2.any (fun t => strContains (jsToLower s) t) = false) := by
  have heq : mapPropertyTypeStr s = firstKindMatch kindTable (jsToLower s) := by
    simp [mapPropertyTypeStr, firstKindMatch, kindTable, List.any_cons, List.any_nil,
      Bool.or_false, or_assoc]
  refine ⟨heq, ?_⟩
  rw [heq]
  exact firstKindMatch_eq_other kindTable (jsToLower s) (by decide)

/-- C5.  Floor parsing: `"R/C"` maps to 0, `"Cave"` to -1, `"Sótão"` to
the reserved sentinel 99, `"3º andar"` to 3 via its first embedded
integer, and the empty or absent string to absent. -/
theorem parseFloor_examples :
    parseFloor (some "R/C") = some 0 ∧ parseFloor (some "Cave") = some (-1) ∧
    parseFloor (some "Sótão") = some 99 ∧ parseFloor (some "3º andar") = some 3 ∧
    parseFloor (some "") = none ∧ parseFloor none = none := by decide

/-- C6.  With a record limit of 3 and a single page yielding 5 items,
the outcome holds exactly the first 3 records and its stop reason is
the record-limit break.  The scenario also has `hasNextPage = false`
and `maxPages = 1`, so the no-more-pages and page-limit conditions
would fire on the same page — the record-limit check still wins,
showing its precedence in the loop body. -/
theorem scrapeLocation_recordLimit_precedence :
    (scrapeLocation (fun _ => FetchOutcome.ok ⟨[10, 20, 30, 40, 50], false⟩) 1
        (some 3)).records = [10, 20, 30] ∧
    (scrapeLocation (fun _ => FetchOutcome.ok ⟨[10, 20, 30, 40, 50], false⟩) 1
        (some 3)).records.length = 3 ∧
    (scrapeLocation (fun _ => FetchOutcome.ok ⟨[10, 20, 30, 40, 50], false⟩) 1
        (some 3)).reason = StopReason.limitReached := by decide

/-- Unrolling `scrapeGo` up to a page whose fetch is blocked: every
earlier page succeeds with a next page, so the loop visits exactly
pages `p..p+d` (`fetch (p+d)` being the blocked one), keeps the records
of the successful pages, and stops with the blocked reason. -/
lemma scrapeGo_blocked {α : Type} (fetch : Nat → FetchOutcome α) (pages : Nat → PageResult α)
    (n : Nat) (hb : fetch n = FetchOutcome.err true) :
    ∀ (d p rem : Nat) (acc : List α) (visited : List Nat), p + d = n → d < rem →
      (∀ k, p ≤ k → k < n → fetch k = FetchOutcome.ok (pages k) ∧ (pages k).hasNextPage = true) →
      scrapeGo fetch none rem p acc visited =
        ⟨acc ++ ((List.range' p d).map fun k => (pages k).properties).flatten,
          visited ++ List.range' p (d + 1), StopReason.blocked⟩ := by
  intro d
  induction d with
  | zero =>
    intro p rem acc visited hpd hrem hok
    obtain ⟨r, rfl⟩ : ∃ r, rem = r + 1 := ⟨rem - 1, by omega⟩
    have hpn : p = n := by omega
    subst hpn
    simp [scrapeGo, hb, List.range'_one]
  | succ d ih =>
    intro p rem acc visited hpd hrem hok
    obtain ⟨r, rfl⟩ : ∃ r, rem = r + 1 := ⟨rem - 1, by omega⟩
    have hp : p < n := by omega
    obtain ⟨hfp, hnext⟩ := hok p (le_refl p) hp
    simp only [scrapeGo, hfp, hnext, limitHit, if_false, Bool.false_eq_true, if_true]
    rw [ih (p + 1) r (acc ++ (pages p).properties) (visited ++ [p]) (by omega) (by omega)
      (fun k hk1 hk2 => hok k (by omega) hk2)]
    rw [List.range'_succ p (d + 1), List.range'_succ p d]
    simp [List.append_assoc]

/-- C7.  A blocked fetch ends the location's crawl immediately: when
page `n` of the crawl fails as blocked and the pages before it
succeeded, the loop fetches exactly pages `1..n` — each once, so page
`n` is not retried and page `n+1` is never fetched — keeps exactly the
records accumulated from the prior pages, and reports the blocked
outcome. -/
theorem scrapeLocation_blocked_halts {α : Type} (fetch : Nat → FetchOutcome α)
    (pages : Nat → PageResult α) (maxPages n : Nat)
    (h1 : 1 ≤ n) (h2 : n ≤ maxPages) (hb : fetch n = FetchOutcome.err true)
    (hok : ∀ k, 1 ≤ k → k < n →
      fetch k = FetchOutcome.ok (pages k) ∧ (pages k).hasNextPage = true) :
    scrapeLocation fetch maxPages none =
      ⟨((List.range' 1 (n - 1)).map fun k => (pages k).properties).flatten,
        List.range' 1 n, StopReason.blocked⟩ ∧
    n + 1 ∉ (scrapeLocation fetch maxPages none).fetchedPages := by
  have hgo := scrapeGo_blocked fetch pages n hb (n - 1) 1 maxPages [] []
    (by omega) (by omega) hok
  have hn : n - 1 + 1 = n := by omega
  rw [hn] at hgo
  have hmain : scrapeLocation fetch maxPages none =
      ⟨((List.range' 1 (n - 1)).map fun k => (pages k).properties).flatten,
        List.range' 1 n, StopReason.blocked⟩ := by
    simp [scrapeLocation, hgo, jsTruncate]
  refine ⟨hmain, ?_⟩
  rw [hmain]
  simp only [List.mem_range'_1]
  omega

/-- Concrete fetch oracle for the C7 witness: page 2 is blocked, every
other page succeeds with a next page. -/
def fetchW : Nat → FetchOutcome Nat := fun k =>
  if k = 2 then FetchOutcome.err true else FetchOutcome.ok ⟨[k], true⟩

/-- The successful pages of `fetchW`. -/
def pagesW : Nat → PageResult Nat := fun k => ⟨[k], true⟩

/-- Witness for C7: blocked on page 2 of a 5-page job. -/
theorem scrapeLocation_blocked_halts_witness :
    scrapeLocation fetchW 5 none =
      ⟨((List.range' 1 1).map fun k => (pagesW k).properties).flatten,
        List.range' 1 2, StopReason.blocked⟩ ∧
    3 ∉ (scrapeLocation fetchW 5 none).fetchedPages := by
  have h := scrapeLocation_blocked_halts fetchW pagesW 5 2 (by decide) (by decide) rfl
    (fun k hk1 hk2 => by
      have hk : k = 1 := by omega
      subst hk
      exact ⟨rfl, rfl⟩)
  exact h

/-- C8 (amended).  Embedded-state extraction never raises — every
failure is returned as the value `null` — but the two failure modes are
not distinguishable in the returned value: a document without the
`__NEXT_DATA__` container and a document whose container text
`JSON.parse` rejects both return the same `null` (they differ only in
log output).  (The original claim's distinguishable `MissingState` /
`MalformedState` outcomes fail, see the counterexample.) -/
theorem extractNextData_failure_is_none (doc : List ScriptTag) :
    (doc.find? (fun t => t.id == "__NEXT_DATA__") = none → extractNextData doc = none) ∧
    (∀ tag txt, doc.find? (fun t => t.id == "__NEXT_DATA__") = some tag →
      tag.content = some txt → jsonParse txt = none → extractNextData doc = none) := by
  constructor
  · intro h
    simp [extractNextData, h]
  · intro tag txt h1 h2 h3
    simp only [extractNextData, h1, h2]
    split_ifs
    · rfl
    · exact h3

/-- Witness for C8: a present-but-malformed container returns `null`. -/
theorem extractNextData_failure_is_none_witness :
    extractNextData [⟨"__NEXT_DATA__", some "\x7b"⟩] = none :=
  (extractNextData_failure_is_none [⟨"__NEXT_DATA__", some "\x7b"⟩]).2
    ⟨"__NEXT_DATA__", some "\x7b"⟩ "\x7b" rfl rfl rfl

/-- C8 counterexample: a document with no embedded-state container and
a document whose container holds unparseable text produce the *same*
outcome value — both `null` — so the two failure modes are not
distinguishable from the result. -/
theorem extractNextData_indistinguishable_counterexample :
    extractNextData [] = extractNextData [⟨"__NEXT_DATA__", some "\x7b"⟩] ∧
    extractNextData [] = none := ⟨rfl, rfl⟩

/-- Each run of the loop visits a contiguous block of pages starting at
its entry page, one fetch per page, at most as many as it has remaining
iterations. -/
lemma scrapeGo_visited {α : Type} (fetch : Nat → FetchOutcome α) (limit : Option Nat) :
    ∀ (rem page : Nat) (acc : List α) (visited : List Nat), ∃ m, m ≤ rem ∧
      (scrapeGo fetch limit rem page acc visited).fetchedPages = visited ++ List.range' page m := by
  intro rem
  induction rem with
  | zero =>
    intro page acc visited
    exact ⟨0, le_refl 0, by simp [scrapeGo]⟩
  | succ r ih =>
    intro page acc visited
    rcases hf : fetch page with rp | b
    · by_cases hl : limitHit limit (acc.length + rp.properties.length)
      · exact ⟨1, by omega, by simp [scrapeGo, hf, hl, List.range'_one]⟩
      · by_cases hn : rp.hasNextPage
        · obtain ⟨m, hm, he⟩ := ih (page + 1) (acc ++ rp.properties) (visited ++ [page])
          refine ⟨m + 1, by omega, ?_⟩
          simp [scrapeGo, hf, hl, hn, he, List.range'_succ]
        · exact ⟨1, by omega, by simp [scrapeGo, hf, hl, hn, List.range'_one]⟩
    · cases b
      · obtain ⟨m, hm, he⟩ := ih (page + 1) acc (visited ++ [page])
        refine ⟨m + 1, by omega, ?_⟩
        simp [scrapeGo, hf, he, List.range'_succ]
      · exact ⟨1, by omega, by simp [scrapeGo, hf, List.range'_one]⟩

/-- C9.  Pagination invariant: in every run of a location crawl the
fetched page numbers are exactly `1, 2, …, k` for some `k ≤ maxPages` —
the page index starts at 1, increases by exactly 1 per accepted step,
and never exceeds the configured page limit. -/
theorem scrapeLocation_pagination_invariant {α : Type} (fetch : Nat → FetchOutcome α)
    (maxPages : Nat) (limit : Option Nat) :
    ∃ k, k ≤ maxPages ∧
      (scrapeLocation fetch maxPages limit).fetchedPages = List.range' 1 k := by
  obtain ⟨m, hm, he⟩ := scrapeGo_visited fetch limit maxPages 1 [] []
  exact ⟨m, hm, by simp [scrapeLocation, he]⟩

/-- C10.  Page parsing is total and fault-isolated per item: a
top-level structure with no item list yields `[]`; the per-item stage
drops exactly the items whose guarded parse fails (a caught per-item
exception is `none`), keeping every other item's record; and
`parseNextData` is the per-item stage applied to the optional chain's
element list — a total function of its input. -/
theorem parseNextData_total_and_isolated :
    (∀ (nd : NextData) (location : String) (now : Nat), elementListOf nd = none →
      parseNextData nd location now = []) ∧
    (∀ (α : Type) (f : RawItem → Option α) (xs ys : List RawItem) (b : RawItem), f b = none →
      parseItems f (xs ++ b :: ys) = parseItems f xs ++ parseItems f ys) ∧
    (∀ (nd : NextData) (location : String) (now : Nat),
      parseNextData nd location now =
        parseItems (fun item => some (parsePropertyItem item location now))
          ((elementListOf nd).getD [])) := by
  refine ⟨?_, ?_, ?_⟩
  · intro nd location now h
    simp [parseNextData, h]
  · intro α f xs ys b hb
    simp [parseItems, List.filterMap_append, hb]
  · intro nd location now
    simp only [parseNextData]
    by_cases h : ((elementListOf nd).getD []).length = 0
    · rw [if_pos h, List.length_eq_zero.mp h]
      rfl
    · rw [if_neg h]

/-- Witness for C10: the empty top level parses to `[]`, and a failing
item between two empty sides is dropped. -/
theorem parseNextData_total_and_isolated_witness :
    parseNextData {} "lisboa" 0 = [] ∧
    parseItems (fun _ : RawItem => (none : Option Nat)) ([] ++ ({} : RawItem) :: []) =
      parseItems (fun _ : RawItem => (none : Option Nat)) [] ++
        parseItems (fun _ : RawItem => (none : Option Nat)) [] := by
  obtain ⟨h1, h2, h3⟩ := parseNextData_total_and_isolated
  exact ⟨h1 {} "lisboa" 0 rfl, h2 Nat (fun _ => none) [] [] {} rfl⟩

end Idealista
